import Mathlib

/-!
# Verification of the splat terrain-coverage engine

A shallow embedding, in Lean 4, of the parts of the `hoche/splat` code base
needed to settle the specification claims: the alphanumeric-output signal
conversions (`anf.cpp`), the `-maxpages` validation (`main.cpp`), the
longitude-difference helper (`Utilities::LonDiff`), the work queue
(`workqueue.cpp`), the elevation-map mask/signal writers (`elevation_map.h`),
site loading (`site.cpp`) and the path sampler (`path.h`).

C++ `double` values are modelled as exact rationals (`ℚ`) except where the
source computes with transcendental functions (great-circle distance), which
are modelled over `ℝ`.
-/

set_option autoImplicit false

namespace Splat

/-! ## Rounding primitives

`rint` (C99, default rounding mode) rounds to the nearest integer, ties to
even; `round` (C99) rounds to the nearest integer, ties away from zero.
Both are modelled on exact rationals. -/

/-- `rint` from `<cmath>`: round to nearest, ties to even
(the default IEEE-754 rounding mode used by `anf.cpp`). -/
def rintQ (q : ℚ) : ℤ :=
  let f : ℤ := ⌊q⌋
  let r : ℚ := q - f
  if r < 1/2 then f
  else if 1/2 < r then f + 1
  else if 2 ∣ f then f else f + 1

/-- `round` from `<cmath>`: round to nearest, ties away from zero. -/
def croundQ (q : ℚ) : ℤ :=
  if q < 0 then -⌊-q + 1/2⌋ else ⌊q + 1/2⌋

/-- C++ integral conversion to `unsigned char`: reduction modulo 2^8.
A conversion that stays in `[0,255]` is the identity; anything else would
wrap. -/
def ucharOfInt (z : ℤ) : ℤ := z % 256

/-! ## `Anf::LoadANO` signal conversions (`src/anf.cpp`, lines 78–128)

The loop body of `Anf::LoadANO` converts each alphanumeric value `ano` to a
signal byte in one of three mode-dependent ways before calling
`ElevationMap::PutSignal` with `(unsigned char) round(ano)`:

* path-loss mode (`lrp.erp == 0.0`): `ano = fabs(ano); if (ano > 255) ano = 255;`
* power mode (`lrp.erp != 0.0 && sr.dbm`): `ano = 200.0 + rint(ano);`
  then clamp below at `0.0` and above at `255.0`;
* field-strength mode (`lrp.erp != 0.0 && !sr.dbm`): `ano = 100.0 + rint(ano);`
  then clamp below at `0.0` and above at `255.0`. -/

/-- Path-loss mode value (`anf.cpp` lines 84–87): absolute value capped at 255. -/
def anfPathLossVal (ano : ℚ) : ℚ :=
  let a := |ano|
  if a > 255 then 255 else a

/-- Power (dBm) mode value (`anf.cpp` lines 99–105): `200.0 + rint(ano)`,
then the two sequential clamps. -/
def anfDbmVal (ano : ℚ) : ℚ :=
  let a : ℚ := 200 + (rintQ ano : ℚ)
  let a := if a < 0 then 0 else a
  if a > 255 then 255 else a

/-- Field-strength mode value (`anf.cpp` lines 117–123): `100.0 + rint(ano)`,
then the two sequential clamps. -/
def anfFieldVal (ano : ℚ) : ℚ :=
  let a : ℚ := 100 + (rintQ ano : ℚ)
  let a := if a < 0 then 0 else a
  if a > 255 then 255 else a

/-- The byte actually handed to `PutSignal`:
`(unsigned char) round(ano)` applied to the converted value. -/
def anfByte (v : ℚ) : ℤ := ucharOfInt (croundQ v)

/-- Contour-threshold gate for the path-loss branch (`anf.cpp` line 82). -/
def anfPathLossGate (contour_threshold : ℤ) (ano : ℚ) : Bool :=
  contour_threshold = 0 || |ano| ≤ (contour_threshold : ℚ)

/-- Contour-threshold gate for the power / field-strength branches
(`anf.cpp` lines 97, 115). -/
def anfSignalGate (contour_threshold : ℤ) (ano : ℚ) : Bool :=
  contour_threshold = 0 || (contour_threshold : ℚ) ≤ ano

/-- Clamping an integer to the byte range `[0,255]`, matching the
sequential `if (a < 0) a = 0; if (a > 255) a = 255;` pattern of `anf.cpp`. -/
def clampByte (n : ℤ) : ℤ :=
  if n < 0 then 0 else if 255 < n then 255 else n

lemma clampByte_nonneg (n : ℤ) : 0 ≤ clampByte n := by
  unfold clampByte; split_ifs <;> omega

lemma clampByte_le (n : ℤ) : clampByte n ≤ 255 := by
  unfold clampByte; split_ifs <;> omega

lemma croundQ_intCast (n : ℤ) : croundQ (n : ℚ) = n := by
  unfold croundQ
  rcases lt_or_le (n : ℚ) 0 with h | h
  · rw [if_pos h]
    have : -(n : ℚ) + 1/2 = ((-n : ℤ) : ℚ) + 1/2 := by push_cast; ring
    rw [this, Int.floor_int_add]
    have h2 : ⌊(1/2 : ℚ)⌋ = 0 := by norm_num [Int.floor_eq_zero_iff]
    rw [h2]; ring
  · rw [if_neg (not_lt.mpr h), Int.floor_int_add]
    have h2 : ⌊(1/2 : ℚ)⌋ = 0 := by norm_num [Int.floor_eq_zero_iff]
    rw [h2]; ring

lemma croundQ_nonneg {q : ℚ} (h : 0 ≤ q) : 0 ≤ croundQ q := by
  unfold croundQ
  rw [if_neg (not_lt.mpr h)]
  exact Int.le_floor.mpr (by push_cast; linarith)

lemma croundQ_le_255 {q : ℚ} (h0 : 0 ≤ q) (h : q ≤ 255) : croundQ q ≤ 255 := by
  unfold croundQ
  rw [if_neg (not_lt.mpr h0)]
  have : ⌊q + 1/2⌋ < 256 := Int.floor_lt.mpr (by push_cast; linarith)
  omega

lemma ucharOfInt_eq_self {z : ℤ} (h0 : 0 ≤ z) (h : z ≤ 255) : ucharOfInt z = z := by
  unfold ucharOfInt
  exact Int.emod_eq_of_lt h0 (by omega)

/-- The shared `base + rint(ano)`-then-clamp shape of the power and
field-strength branches, reduced to an integer clamp. -/
lemma anfClampVal_eq (base : ℤ) (ano : ℚ) :
    (let a : ℚ := (base : ℚ) + (rintQ ano : ℚ);
     let a := if a < 0 then 0 else a;
     if a > 255 then (255 : ℚ) else a) = ((clampByte (base + rintQ ano) : ℤ) : ℚ) := by
  set r := rintQ ano with hr
  have hcast : (base : ℚ) + (r : ℚ) = ((base + r : ℤ) : ℚ) := by push_cast; ring
  unfold clampByte
  rcases lt_trichotomy (base + r) 0 with h | h | h
  · have hq : (base : ℚ) + (r : ℚ) < 0 := by rw [hcast]; exact_mod_cast h
    simp only [if_pos hq, if_pos h]
    norm_num
  · have hq : ¬((base : ℚ) + (r : ℚ) < 0) := by rw [hcast]; simp [h]
    simp only [if_neg hq, if_neg (by omega : ¬(base + r < 0)), h]
    norm_num [hcast, h]
  · have hq : ¬((base : ℚ) + (r : ℚ) < 0) := by rw [hcast]; exact_mod_cast not_lt.mpr h.le
    rcases lt_or_le 255 (base + r) with h2 | h2
    · have hq2 : (base : ℚ) + (r : ℚ) > 255 := by rw [hcast]; exact_mod_cast h2
      simp only [if_neg hq, if_pos hq2, if_neg (by omega : ¬(base + r < 0)), if_pos h2]
      norm_num
    · have hq2 : ¬((base : ℚ) + (r : ℚ) > 255) := by rw [hcast]; exact_mod_cast not_lt.mpr h2
      simp only [if_neg hq, if_neg hq2, if_neg (by omega : ¬(base + r < 0)),
        if_neg (not_lt.mpr h2)]
      exact hcast

lemma anfFieldVal_eq (ano : ℚ) :
    anfFieldVal ano = ((clampByte (100 + rintQ ano) : ℤ) : ℚ) :=
  anfClampVal_eq 100 ano

lemma anfDbmVal_eq (ano : ℚ) :
    anfDbmVal ano = ((clampByte (200 + rintQ ano) : ℤ) : ℚ) :=
  anfClampVal_eq 200 ano

lemma anfPathLossVal_eq (ano : ℚ) : anfPathLossVal ano = min |ano| 255 := by
  unfold anfPathLossVal
  rcases lt_or_le (255 : ℚ) |ano| with h | h
  · simp [h, min_eq_right h.le]
  · simp [not_lt.mpr h, min_eq_left h]

lemma anfPathLossVal_bounds (ano : ℚ) :
    0 ≤ anfPathLossVal ano ∧ anfPathLossVal ano ≤ 255 := by
  rw [anfPathLossVal_eq]
  exact ⟨le_min (abs_nonneg ano) (by norm_num), min_le_right _ _⟩

/-- `anfByte` on an integer-valued clamp is the clamp itself (no wrap). -/
lemma anfByte_of_intCast (n : ℤ) (h0 : 0 ≤ n) (h : n ≤ 255) :
    anfByte ((n : ℤ) : ℚ) = n := by
  unfold anfByte
  rw [croundQ_intCast, ucharOfInt_eq_self h0 h]

/-- **C1.** Every mode-dependent signal conversion in `Anf::LoadANO` produces a
byte in `[0,255]` by clamping, never by wrapping: in field-strength mode
(ERP nonzero, dBm flag unset) the written byte equals `100 + rint(value)`
clamped to `[0,255]`; in power mode (ERP nonzero, dBm flag set) it equals
`200 + rint(value)` clamped to `[0,255]`; in path-loss mode (ERP zero) it
equals the magnitude of the loss clamped to `[0,255]` (rounded to the nearest
integer byte).  In each mode the `unsigned char` cast is the identity on the
already-clamped value, so no wrapping occurs. -/
theorem anf_signal_conversions_clamped (ano : ℚ) :
    (anfByte (anfFieldVal ano) = clampByte (100 + rintQ ano) ∧
      0 ≤ anfByte (anfFieldVal ano) ∧ anfByte (anfFieldVal ano) ≤ 255 ∧
      anfByte (anfFieldVal ano) = croundQ (anfFieldVal ano)) ∧
    (anfByte (anfDbmVal ano) = clampByte (200 + rintQ ano) ∧
      0 ≤ anfByte (anfDbmVal ano) ∧ anfByte (anfDbmVal ano) ≤ 255 ∧
      anfByte (anfDbmVal ano) = croundQ (anfDbmVal ano)) ∧
    (anfByte (anfPathLossVal ano) = croundQ (min |ano| 255) ∧
      0 ≤ anfByte (anfPathLossVal ano) ∧ anfByte (anfPathLossVal ano) ≤ 255 ∧
      anfByte (anfPathLossVal ano) = croundQ (anfPathLossVal ano)) := by
  refine ⟨?_, ?_, ?_⟩
  · rw [anfFieldVal_eq]
    have hb := anfByte_of_intCast _ (clampByte_nonneg (100 + rintQ ano))
      (clampByte_le (100 + rintQ ano))
    refine ⟨hb, ?_, ?_, ?_⟩
    · rw [hb]; exact clampByte_nonneg _
    · rw [hb]; exact clampByte_le _
    · rw [hb, croundQ_intCast]
  · rw [anfDbmVal_eq]
    have hb := anfByte_of_intCast _ (clampByte_nonneg (200 + rintQ ano))
      (clampByte_le (200 + rintQ ano))
    refine ⟨hb, ?_, ?_, ?_⟩
    · rw [hb]; exact clampByte_nonneg _
    · rw [hb]; exact clampByte_le _
    · rw [hb, croundQ_intCast]
  · obtain ⟨hv0, hv255⟩ := anfPathLossVal_bounds ano
    have hr0 : 0 ≤ croundQ (anfPathLossVal ano) := croundQ_nonneg hv0
    have hr255 : croundQ (anfPathLossVal ano) ≤ 255 := croundQ_le_255 hv0 hv255
    have hb : anfByte (anfPathLossVal ano) = croundQ (anfPathLossVal ano) := by
      unfold anfByte
      exact ucharOfInt_eq_self hr0 hr255
    refine ⟨?_, ?_, ?_, hb⟩
    · rw [hb, anfPathLossVal_eq]
    · rw [hb]; exact hr0
    · rw [hb]; exact hr255

/-! ## `-maxpages` validation (`src/main.cpp`, lines 313–357)

`main` validates `sr.maxpages` with a `switch`: the values 4, 9, 16, 25, 36,
49 and 64 select an `arraysize` (different in HD and non-HD mode); the value
1 selects `arraysize = 5092` **only in HD mode** and otherwise prints
`*** ERROR: -maxpages must be >= 4 if not in HD mode!` and exits; every other
value prints `*** ERROR: -maxpages must be one of 1, 4, 9, 16, 25, 36, 49, 64`
and exits.  `command_line_parser.cpp` (lines 516–537) performs the identical
check.  An `exit(-1)` is modelled as `Except.error` carrying the diagnostic. -/

/-- Diagnostic printed for `maxpages == 1` outside HD mode
(`main.cpp` line 318). -/
def maxpagesHdError : String :=
  "*** ERROR: -maxpages must be >= 4 if not in HD mode!"

/-- Diagnostic printed for a `maxpages` value outside the accepted set
(`main.cpp` line 353). -/
def maxpagesInvalidError : String :=
  "*** ERROR: -maxpages must be one of 1, 4, 9, 16, 25, 36, 49, 64"

/-- The `switch (sr.maxpages)` of `main.cpp` lines 313–357: either the
`sr.arraysize` value assigned for the run, or the fatal diagnostic. -/
def maxpagesArraysize (maxpages : ℤ) (hd_mode : Bool) : Except String ℤ :=
  if maxpages = 1 then
    if !hd_mode then Except.error maxpagesHdError else Except.ok 5092
  else if maxpages = 4 then Except.ok (if hd_mode then 14844 else 4950)
  else if maxpages = 9 then Except.ok (if hd_mode then 32600 else 10870)
  else if maxpages = 16 then Except.ok (if hd_mode then 57713 else 19240)
  else if maxpages = 25 then Except.ok (if hd_mode then 90072 else 30025)
  else if maxpages = 36 then Except.ok (if hd_mode then 129650 else 43217)
  else if maxpages = 49 then Except.ok (if hd_mode then 176437 else 58813)
  else if maxpages = 64 then Except.ok (if hd_mode then 230430 else 76810)
  else Except.error maxpagesInvalidError

/-- **C2 (counterexample).** The claim says every value in
`{1, 4, 9, 16, 25, 36, 49, 64}` is accepted, but `maxpages = 1` without HD
mode aborts the process with the `-maxpages` diagnostic, so `1` is *not*
always accepted. -/
theorem maxpages_one_rejected_without_hd :
    maxpagesArraysize 1 false = Except.error maxpagesHdError ∧
    ¬∃ n, maxpagesArraysize 1 false = Except.ok n := by
  constructor
  · rfl
  · rintro ⟨n, h⟩
    simp [maxpagesArraysize] at h

set_option maxHeartbeats 1000000 in
/-- **C2 (amended).** The `-maxpages` setting is validated at startup: a value
is accepted (and determines the profile array size) exactly when it lies in
`{4, 9, 16, 25, 36, 49, 64}`, or equals `1` while HD mode is active; every
other combination aborts with a diagnostic naming the `-maxpages` setting
(one of the two fixed messages above), and the run never continues with an
invalid `maxpages`. -/
theorem maxpages_validation (maxpages : ℤ) (hd_mode : Bool) :
    ((∃ n, maxpagesArraysize maxpages hd_mode = Except.ok n) ↔
      (maxpages = 4 ∨ maxpages = 9 ∨ maxpages = 16 ∨ maxpages = 25 ∨
        maxpages = 36 ∨ maxpages = 49 ∨ maxpages = 64 ∨
        (maxpages = 1 ∧ hd_mode = true))) ∧
    (maxpagesArraysize maxpages hd_mode = Except.error maxpagesHdError ∨
      maxpagesArraysize maxpages hd_mode = Except.error maxpagesInvalidError ∨
      ∃ n, maxpagesArraysize maxpages hd_mode = Except.ok n) := by
  constructor
  · constructor
    · rintro ⟨n, h⟩
      unfold maxpagesArraysize at h
      cases hd_mode <;>
        split_ifs at h <;>
          first
            | exact Except.noConfusion h
            | tauto
    · intro h
      rcases h with h | h | h | h | h | h | h | ⟨h, hd⟩ <;>
        first
          | (subst h; exact ⟨_, rfl⟩)
          | (subst h; subst hd; exact ⟨_, rfl⟩)
  · unfold maxpagesArraysize
    cases hd_mode <;>
      split_ifs <;>
        first
          | exact Or.inl rfl
          | exact Or.inr (Or.inl rfl)
          | exact Or.inr (Or.inr ⟨_, rfl⟩)

/-! ## `Utilities::LonDiff` -/

/-- Modelled from the spec: `Utilities::LonDiff` — the implementation file
`utilities.cpp` is not in the source tree; only the declaration in
`utilities.h`, its unit tests, and its callers are.  The spec describes the
helper as returning "the signed shortest angular distance" between two
longitudes, "a value in (-180, 180]".  The unique such representative of
`lon1 - lon2` modulo 360 is `d - 360 * ⌈(d - 180) / 360⌉`. -/
def LonDiff (lon1 lon2 : ℚ) : ℚ :=
  let d := lon1 - lon2
  d - 360 * (⌈(d - 180) / 360⌉ : ℤ)

/-- **C3.** For all longitudes `a`, `b`, `LonDiff a b` lies in the half-open
interval `(-180, 180]`, is congruent to `a - b` modulo 360, is (weakly) the
shortest among all representatives of that congruence class, and
`LonDiff a a = 0`. -/
theorem lonDiff_shortest_angular_distance (a b : ℚ) :
    (-180 < LonDiff a b ∧ LonDiff a b ≤ 180) ∧
    (∃ k : ℤ, a - b - LonDiff a b = 360 * k) ∧
    (∀ k : ℤ, |LonDiff a b| ≤ |a - b - 360 * k|) ∧
    LonDiff a a = 0 := by
  have key : ∀ d : ℚ, -180 < d - 360 * (⌈(d - 180) / 360⌉ : ℤ) ∧
      d - 360 * (⌈(d - 180) / 360⌉ : ℤ) ≤ 180 := by
    intro d
    have h1 : ((d - 180) / 360 : ℚ) ≤ (⌈(d - 180) / 360⌉ : ℤ) := Int.le_ceil _
    have h2 : ((⌈(d - 180) / 360⌉ : ℤ) : ℚ) < (d - 180) / 360 + 1 :=
      Int.ceil_lt_add_one _
    constructor <;> nlinarith
  have hrange := key (a - b)
  have hcong : ∃ k : ℤ, a - b - LonDiff a b = 360 * k := by
    refine ⟨⌈(a - b - 180) / 360⌉, ?_⟩
    unfold LonDiff
    ring
  refine ⟨hrange, hcong, ?_, ?_⟩
  · intro k
    obtain ⟨c, hc⟩ := hcong
    have habs : |LonDiff a b| ≤ 180 := by
      rw [abs_le]
      exact ⟨hrange.1.le, hrange.2⟩
    have hk : a - b - 360 * k = LonDiff a b + 360 * ((c : ℚ) - k) := by
      have : (a : ℚ) - b = LonDiff a b + 360 * c := by linarith
      rw [this]; ring
    rcases eq_or_ne c k with rfl | hne
    · simp [hk]
    · have hck : (1 : ℚ) ≤ |(c : ℚ) - (k : ℚ)| := by
        have : ((c - k : ℤ) : ℚ) = (c : ℚ) - k := by push_cast; ring
        rw [← this, ← Int.cast_abs]
        exact_mod_cast Int.one_le_abs (sub_ne_zero.mpr hne)
      have h360 : (360 : ℚ) ≤ |360 * ((c : ℚ) - k)| := by
        rw [abs_mul]
        have : |(360 : ℚ)| = 360 := by norm_num
        rw [this]
        nlinarith [hck]
      have htri : |360 * ((c : ℚ) - k)| ≤
          |LonDiff a b + 360 * ((c : ℚ) - k)| + |LonDiff a b| := by
        have h1 := abs_add (LonDiff a b + 360 * ((c : ℚ) - k)) (-(LonDiff a b))
        have heq : LonDiff a b + 360 * ((c : ℚ) - k) + -(LonDiff a b) =
            360 * ((c : ℚ) - k) := by ring
        rw [heq, abs_neg] at h1
        exact h1
      rw [hk]
      linarith
  · show (a - a) - 360 * (⌈((a - a) - 180) / 360⌉ : ℤ) = 0
    rw [sub_self a]
    have h2 : (((0 : ℚ) - 180) / 360 : ℚ) = -(1/2) := by norm_num
    rw [h2]
    have hceil : ⌈(-(1/2) : ℚ)⌉ = 0 := by
      rw [Int.ceil_eq_zero_iff]
      constructor <;> norm_num
    rw [hceil]
    norm_num

/-! ## `WorkQueue` (`src/workqueue.cpp`)

The work queue holds a deque of jobs (`m_work`), a vector of worker threads
(`m_workers`, modelled by its size), and the two shutdown flags `m_exit` and
`m_finish_work`.  Jobs are modelled as opaque identifiers.  The sequential
effect of each member function on this state is embedded directly from
`workqueue.cpp`; the worker loop `doWork` is modelled by the jobs it executes
once the shutdown flags have been published (`m_exit = true`), which is the
only phase in which the loop terminates. -/

/-- A queued closure, identified opaquely. -/
abbrev Job := ℕ

structure WorkQueueState where
  m_exit : Bool
  m_finish_work : Bool
  m_work : List Job
  m_workers : ℕ
  deriving DecidableEq, Repr

namespace WorkQueueState

/-- `WorkQueue::joinAll` (`workqueue.cpp` lines 109–115): joins and clears all
worker threads, then clears the work list. -/
def joinAll (s : WorkQueueState) : WorkQueueState :=
  { s with m_workers := 0, m_work := [] }

/-- `WorkQueue::abort` (`workqueue.cpp` lines 47–58): publish
`m_exit = true`, `m_finish_work = false`, join all workers, then clear the
work list. -/
def abortQueue (s : WorkQueueState) : WorkQueueState :=
  let s1 := { s with m_exit := true, m_finish_work := false }
  let s2 := s1.joinAll
  { s2 with m_work := [] }

/-- `WorkQueue::waitForCompletion` (`workqueue.cpp` lines 61–67): publish
`m_exit = true`, `m_finish_work = true`, then join all workers. -/
def waitForCompletion (s : WorkQueueState) : WorkQueueState :=
  ({ s with m_exit := true, m_finish_work := true }).joinAll

/-- `WorkQueue::~WorkQueue` (`workqueue.cpp` line 42): the destructor body is
exactly `abort();`. -/
def destruct (s : WorkQueueState) : WorkQueueState :=
  s.abortQueue

/-- `WorkQueue::submit` (`workqueue.cpp` lines 69–84).  Returns the new state
and whether the caller was suspended on the backpressure condition variable
(`blocking && m_work.size() >= m_workers.size()`).  The early return fires
when `m_exit || !m_finish_work`. -/
def submit (s : WorkQueueState) (job : Job) (blocking : Bool) :
    WorkQueueState × Bool :=
  if s.m_exit || !s.m_finish_work then (s, false)
  else ({ s with m_work := s.m_work ++ [job] },
        blocking && decide (s.m_workers ≤ s.m_work.length))

/-- The jobs a worker executes in `WorkQueue::doWork` (`workqueue.cpp` lines
87–107) after the shutdown flags have been published (`m_exit = true`): the
loop guard degenerates to `m_finish_work && !m_work.empty()`, so with
`m_finish_work = false` the worker exits at once executing nothing, and with
`m_finish_work = true` it drains the queue in FIFO order. -/
def doWorkShutdown (finish_work : Bool) : List Job → List Job
  | [] => []
  | j :: rest => if finish_work then j :: doWorkShutdown finish_work rest else []

end WorkQueueState

/-- **C4.** Destroying a `WorkQueue` without first calling
`wait_for_completion()` behaves exactly as `abort()`: the destructor's effect
is the effect of `abort`; the flags workers observe are
`m_exit = true, m_finish_work = false`, under which a worker executes none of
the queued-but-not-started jobs (`doWorkShutdown false` discards the whole
queue); and destruction joins every worker thread (`m_workers = 0` afterwards,
unlike `wait_for_completion`, which drains the full queue in FIFO order). -/
theorem workqueue_destructor_is_abort (s : WorkQueueState) :
    s.destruct = s.abortQueue ∧
    s.destruct.m_exit = true ∧
    s.destruct.m_finish_work = false ∧
    WorkQueueState.doWorkShutdown s.destruct.m_finish_work s.m_work = [] ∧
    s.destruct.m_work = [] ∧
    s.destruct.m_workers = 0 ∧
    WorkQueueState.doWorkShutdown s.waitForCompletion.m_finish_work s.m_work =
      s.m_work := by
  refine ⟨rfl, rfl, rfl, ?_, rfl, rfl, ?_⟩
  · show WorkQueueState.doWorkShutdown false s.m_work = []
    cases s.m_work with
    | nil => rfl
    | cons j rest => simp [WorkQueueState.doWorkShutdown]
  · show WorkQueueState.doWorkShutdown true s.m_work = s.m_work
    induction s.m_work with
    | nil => rfl
    | cons j rest ih => simp [WorkQueueState.doWorkShutdown, ih]

/-- **C5.** Submitting after shutdown has begun is a no-op: both `abort()` and
`wait_for_completion()` publish `m_exit = true` before joining, and for any
state in which `m_exit = true`, `submit` returns immediately for every job and
every blocking flag — the job is not enqueued, the state (in particular the
work list) is unchanged, and the caller is not suspended. -/
theorem workqueue_submit_noop_after_shutdown (s t : WorkQueueState) (job : Job)
    (blocking : Bool) (h : t.m_exit = true) :
    s.abortQueue.m_exit = true ∧
    s.waitForCompletion.m_exit = true ∧
    t.submit job blocking = (t, false) := by
  refine ⟨rfl, rfl, ?_⟩
  unfold WorkQueueState.submit
  rw [h]
  rfl

/-- Witness for `workqueue_submit_noop_after_shutdown` at a concrete
post-shutdown state (`m_exit = true`, two workers, one queued job). -/
theorem workqueue_submit_noop_after_shutdown_witness :
    (⟨true, true, [5], 2⟩ : WorkQueueState).submit 7 true =
      (⟨true, true, [5], 2⟩, false) :=
  (workqueue_submit_noop_after_shutdown ⟨false, true, [], 1⟩ ⟨true, true, [5], 2⟩
    7 true rfl).2.2

/-! ## `Site` (`src/site.h`) -/

/-- A named geographic point (`site.h`): latitude and longitude in degrees
(`double`), altitude (`float`), the AMSL/AGL flag, a name and the file it was
loaded from. -/
structure Site where
  lat : ℚ
  lon : ℚ
  alt : ℚ
  amsl_flag : Bool
  name : String
  filename : String
  deriving DecidableEq, Repr

/-! ## `ElevationMap` mask and signal planes

Modelled from the spec: the bodies of `ElevationMap::FindMask`,
`PutMask`, `OrMask`, `GetMask`, `PutSignal`, `GetSignal` and `PlaceMarker`
live in an `elevation_map.cpp` that is not in the source tree; only the
declarations in `elevation_map.h` and the spec's Tile Store section are.
Per the spec: a tile covers one degree square with integer degree bounds;
the containing tile of a fractional `(lat, lon)` is the unique loaded tile
whose integer degree bounds contain the floor of `(lat, lon)`; `put_mask` /
`or_mask` / `get_mask` set, merge and read overlay bits, `or_mask`
non-destructively; `put_signal` / `get_signal` write and read the signal
byte; `place_marker` sets the site-marker overlay bit at a site's cell; and
every mutating operation is a no-op (not an error) for coordinates outside
every loaded tile. -/

/-- One loaded terrain tile (`dem.h` is not in the source tree; bounds and the
mask/signal planes are modelled from the spec's Tile data model). -/
structure Dem where
  min_lat : ℤ
  max_lat : ℤ
  min_lon : ℤ
  max_lon : ℤ
  mask : ℤ × ℤ → ℕ
  signal : ℤ × ℤ → ℕ

/-- Modelled from the spec: a tile contains a fractional coordinate when its
integer degree bounds contain the floor of `(lat, lon)`. -/
def Dem.contains (d : Dem) (lat lon : ℚ) : Bool :=
  decide (d.min_lat ≤ ⌊lat⌋ ∧ ⌊lat⌋ ≤ d.max_lat ∧
    d.min_lon ≤ ⌊lon⌋ ∧ ⌊lon⌋ ≤ d.max_lon)

/-- Modelled from the spec: the grid cell of a fractional coordinate inside a
tile, at `ppd` samples per degree. -/
def Dem.cellOf (d : Dem) (ppd lat lon : ℚ) : ℤ × ℤ :=
  (⌊(lat - d.min_lat) * ppd⌋, ⌊(lon - d.min_lon) * ppd⌋)

/-- Pointwise update of a tile plane. -/
def setCell (g : ℤ × ℤ → ℕ) (c : ℤ × ℤ) (v : ℕ) : ℤ × ℤ → ℕ :=
  fun c2 => if c2 = c then v else g c2

/-- Modelled from the spec: locate the first tile containing `(lat, lon)`,
returning its index and the cell, as `ElevationMap::FindMask` returns
`(indx, x, y)`. -/
def findMaskList (ppd lat lon : ℚ) : List Dem → Option (ℕ × ℤ × ℤ)
  | [] => none
  | d :: rest =>
    if d.contains lat lon then some (0, d.cellOf ppd lat lon)
    else (findMaskList ppd lat lon rest).map (fun r => (r.1 + 1, r.2))

/-- Modelled from the spec: read the overlay mask at a coordinate (0 when no
tile contains it). -/
def getMaskList (ppd lat lon : ℚ) : List Dem → ℕ
  | [] => 0
  | d :: rest =>
    if d.contains lat lon then d.mask (d.cellOf ppd lat lon)
    else getMaskList ppd lat lon rest

/-- Modelled from the spec: OR `v` into the overlay mask at a coordinate,
leaving every tile untouched when none contains it. -/
def orMaskList (ppd lat lon : ℚ) (v : ℕ) : List Dem → List Dem
  | [] => []
  | d :: rest =>
    if d.contains lat lon then
      { d with mask := (setCell d.mask (d.cellOf ppd lat lon)
          (Nat.lor (d.mask (d.cellOf ppd lat lon)) v)) } :: rest
    else d :: orMaskList ppd lat lon v rest

/-- Modelled from the spec: overwrite the overlay mask at a coordinate,
leaving every tile untouched when none contains it. -/
def putMaskList (ppd lat lon : ℚ) (v : ℕ) : List Dem → List Dem
  | [] => []
  | d :: rest =>
    if d.contains lat lon then
      { d with mask := setCell d.mask (d.cellOf ppd lat lon) v } :: rest
    else d :: putMaskList ppd lat lon v rest

/-- Modelled from the spec: write the signal byte at a coordinate, leaving
every tile untouched when none contains it. -/
def putSignalList (ppd lat lon : ℚ) (v : ℕ) : List Dem → List Dem
  | [] => []
  | d :: rest =>
    if d.contains lat lon then
      { d with signal := setCell d.signal (d.cellOf ppd lat lon) v } :: rest
    else d :: putSignalList ppd lat lon v rest

/-- Modelled from the spec: read the signal byte (0 when no tile contains the
coordinate). -/
def getSignalList (ppd lat lon : ℚ) : List Dem → ℕ
  | [] => 0
  | d :: rest =>
    if d.contains lat lon then d.signal (d.cellOf ppd lat lon)
    else getSignalList ppd lat lon rest

/-- The Tile Store: resolution (`ppd`, samples per degree) and the loaded
tiles, as in `elevation_map.h`. -/
structure ElevationMap where
  ppd : ℚ
  dem : List Dem

namespace ElevationMap

def findMask (em : ElevationMap) (lat lon : ℚ) : Option (ℕ × ℤ × ℤ) :=
  findMaskList em.ppd lat lon em.dem

def getMask (em : ElevationMap) (lat lon : ℚ) : ℕ :=
  getMaskList em.ppd lat lon em.dem

def orMask (em : ElevationMap) (lat lon : ℚ) (v : ℕ) : ElevationMap :=
  { em with dem := orMaskList em.ppd lat lon v em.dem }

def putMask (em : ElevationMap) (lat lon : ℚ) (v : ℕ) : ElevationMap :=
  { em with dem := putMaskList em.ppd lat lon v em.dem }

def putSignal (em : ElevationMap) (lat lon : ℚ) (v : ℕ) : ElevationMap :=
  { em with dem := putSignalList em.ppd lat lon v em.dem }

def getSignal (em : ElevationMap) (lat lon : ℚ) : ℕ :=
  getSignalList em.ppd lat lon em.dem

/-- Modelled from the spec: `place_marker(site)` sets the site-marker overlay
bit (bit value 2) at the site's cell. -/
def placeMarker (em : ElevationMap) (site : Site) : ElevationMap :=
  em.orMask site.lat site.lon 2

end ElevationMap

lemma findMaskList_eq_none_iff (ppd lat lon : ℚ) (dems : List Dem) :
    findMaskList ppd lat lon dems = none ↔
      ∀ d ∈ dems, d.contains lat lon = false := by
  induction dems with
  | nil => simp [findMaskList]
  | cons d rest ih =>
    by_cases hc : d.contains lat lon
    · simp [findMaskList, hc]
    · simp only [findMaskList, if_neg hc, Option.map_eq_none', ih,
        List.mem_cons]
      constructor
      · rintro hrest d2 (rfl | hd2)
        · exact Bool.eq_false_iff.mpr hc
        · exact hrest d2 hd2
      · intro hall d2 hd2
        exact hall d2 (Or.inr hd2)

lemma orMaskList_noop (ppd lat lon : ℚ) (v : ℕ) (dems : List Dem)
    (h : ∀ d ∈ dems, d.contains lat lon = false) :
    orMaskList ppd lat lon v dems = dems := by
  induction dems with
  | nil => rfl
  | cons d rest ih =>
    have hc : d.contains lat lon = false := h d (List.mem_cons_self d rest)
    simp only [orMaskList, hc, Bool.false_eq_true, if_false, List.cons.injEq,
      true_and]
    exact ih fun d2 hd2 => h d2 (List.mem_cons_of_mem d hd2)

lemma putMaskList_noop (ppd lat lon : ℚ) (v : ℕ) (dems : List Dem)
    (h : ∀ d ∈ dems, d.contains lat lon = false) :
    putMaskList ppd lat lon v dems = dems := by
  induction dems with
  | nil => rfl
  | cons d rest ih =>
    have hc : d.contains lat lon = false := h d (List.mem_cons_self d rest)
    simp only [putMaskList, hc, Bool.false_eq_true, if_false, List.cons.injEq,
      true_and]
    exact ih fun d2 hd2 => h d2 (List.mem_cons_of_mem d hd2)

lemma putSignalList_noop (ppd lat lon : ℚ) (v : ℕ) (dems : List Dem)
    (h : ∀ d ∈ dems, d.contains lat lon = false) :
    putSignalList ppd lat lon v dems = dems := by
  induction dems with
  | nil => rfl
  | cons d rest ih =>
    have hc : d.contains lat lon = false := h d (List.mem_cons_self d rest)
    simp only [putSignalList, hc, Bool.false_eq_true, if_false,
      List.cons.injEq, true_and]
    exact ih fun d2 hd2 => h d2 (List.mem_cons_of_mem d hd2)

/-- Updating a tile's mask plane changes neither its bounds test nor its cell
computation. -/
lemma contains_mask_update (d : Dem) (m : ℤ × ℤ → ℕ) (lat lon : ℚ) :
    ({ d with mask := m } : Dem).contains lat lon = d.contains lat lon := rfl

lemma cellOf_mask_update (d : Dem) (m : ℤ × ℤ → ℕ) (ppd lat lon : ℚ) :
    ({ d with mask := m } : Dem).cellOf ppd lat lon = d.cellOf ppd lat lon := rfl

lemma findMaskList_orMaskList (ppd lat lon : ℚ) (v : ℕ) (dems : List Dem) :
    findMaskList ppd lat lon (orMaskList ppd lat lon v dems) =
      findMaskList ppd lat lon dems := by
  induction dems with
  | nil => rfl
  | cons d rest ih =>
    by_cases hc : d.contains lat lon
    · simp only [orMaskList, if_pos hc, findMaskList, contains_mask_update,
        if_pos hc, cellOf_mask_update]
    · simp only [orMaskList, if_neg hc, findMaskList, if_neg hc, ih]

lemma getMaskList_orMaskList (ppd lat lon : ℚ) (v : ℕ) (dems : List Dem)
    (h : ∃ d ∈ dems, d.contains lat lon = true) :
    getMaskList ppd lat lon (orMaskList ppd lat lon v dems) =
      Nat.lor (getMaskList ppd lat lon dems) v := by
  induction dems with
  | nil => simp at h
  | cons d rest ih =>
    by_cases hc : d.contains lat lon
    · simp only [orMaskList, if_pos hc, getMaskList, contains_mask_update,
        if_pos hc, cellOf_mask_update, setCell]
      simp
    · obtain ⟨d2, hd2, hcd2⟩ := h
      rcases List.mem_cons.mp hd2 with rfl | hd2
      · exact absurd hcd2 hc
      · simp only [orMaskList, if_neg hc, getMaskList, if_neg hc]
        exact ih ⟨d2, hd2, hcd2⟩

/-- **C6.** Overlay-mask writes are non-destructive: at every in-bounds cell,
`or_mask X` followed by `or_mask Y` leaves every bit of `X` and of `Y` set in
the value `get_mask` returns, and `or_mask` (with any bits `Z`) never clears a
bit that was previously set. -/
theorem or_mask_nondestructive (em : ElevationMap) (lat lon : ℚ) (X Y : ℕ)
    (h : em.findMask lat lon ≠ none) :
    (∀ i : ℕ, (X.testBit i = true ∨ Y.testBit i = true) →
      (((em.orMask lat lon X).orMask lat lon Y).getMask lat lon).testBit i
        = true) ∧
    (∀ i : ℕ, (em.getMask lat lon).testBit i = true →
      ∀ Z : ℕ, ((em.orMask lat lon Z).getMask lat lon).testBit i = true) := by
  have hex : ∃ d ∈ em.dem, d.contains lat lon = true := by
    by_contra hcon
    push_neg at hcon
    exact h ((findMaskList_eq_none_iff em.ppd lat lon em.dem).mpr
      (by simpa using hcon))
  have h1 : ∀ Z : ℕ, (em.orMask lat lon Z).getMask lat lon =
      Nat.lor (em.getMask lat lon) Z := fun Z =>
    getMaskList_orMaskList em.ppd lat lon Z em.dem hex
  have hex2 : ∀ Z : ℕ, ∃ d ∈ (em.orMask lat lon Z).dem,
      d.contains lat lon = true := by
    intro Z
    by_contra hcon
    push_neg at hcon
    have hnone : findMaskList em.ppd lat lon (orMaskList em.ppd lat lon Z em.dem)
        = none :=
      (findMaskList_eq_none_iff _ _ _ _).mpr (by simpa using hcon)
    rw [findMaskList_orMaskList] at hnone
    exact h hnone
  have h2 : ((em.orMask lat lon X).orMask lat lon Y).getMask lat lon =
      Nat.lor (Nat.lor (em.getMask lat lon) X) Y := by
    have := getMaskList_orMaskList em.ppd lat lon Y
      (orMaskList em.ppd lat lon X em.dem) (hex2 X)
    calc ((em.orMask lat lon X).orMask lat lon Y).getMask lat lon
        = Nat.lor ((em.orMask lat lon X).getMask lat lon) Y := this
      _ = Nat.lor (Nat.lor (em.getMask lat lon) X) Y := by rw [h1 X]
  constructor
  · intro i hi
    rw [h2]
    show ((em.getMask lat lon ||| X) ||| Y).testBit i = true
    simp only [Nat.testBit_or, Bool.or_eq_true]
    rcases hi with hi | hi
    · exact Or.inl (Or.inr hi)
    · exact Or.inr hi
  · intro i hi Z
    rw [h1 Z]
    show (em.getMask lat lon ||| Z).testBit i = true
    simp only [Nat.testBit_or, Bool.or_eq_true]
    exact Or.inl hi

/-- Witness for `or_mask_nondestructive`: a store with one tile spanning
latitudes 40–41 and longitudes 100–101 at 1 sample per degree; ORing bit 1
then bit 4 at (40.5, 100.5) leaves both bits readable. -/
theorem or_mask_nondestructive_witness :
    ((((ElevationMap.mk 1 [⟨40, 41, 100, 101, fun _ => 0, fun _ => 0⟩]).orMask
        (81/2) (201/2) 1).orMask (81/2) (201/2) 4).getMask
        (81/2) (201/2)).testBit 0 = true ∧
    ((((ElevationMap.mk 1 [⟨40, 41, 100, 101, fun _ => 0, fun _ => 0⟩]).orMask
        (81/2) (201/2) 1).orMask (81/2) (201/2) 4).getMask
        (81/2) (201/2)).testBit 2 = true := by
  have h := or_mask_nondestructive
    (ElevationMap.mk 1 [⟨40, 41, 100, 101, fun _ => 0, fun _ => 0⟩])
    (81/2) (201/2) 1 4 (by
      intro hnone
      norm_num [ElevationMap.findMask, findMaskList, Dem.contains] at hnone
      exact Option.noConfusion hnone)
  exact ⟨h.1 0 (Or.inl (by decide)), h.1 2 (Or.inr (by decide))⟩

/-- **C7.** For a coordinate contained in no loaded tile, every mutating Tile
Store operation — `put_mask`, `or_mask`, `put_signal`, `place_marker` — is a
no-op, not an error: the store (all mask and signal planes included) is
returned unchanged and no failure is signalled. -/
theorem mutating_ops_noop_outside_tiles (em : ElevationMap) (lat lon : ℚ)
    (v : ℕ) (site : Site) (h : em.findMask lat lon = none)
    (hs : em.findMask site.lat site.lon = none) :
    em.putMask lat lon v = em ∧ em.orMask lat lon v = em ∧
    em.putSignal lat lon v = em ∧ em.placeMarker site = em := by
  have hall : ∀ d ∈ em.dem, d.contains lat lon = false :=
    (findMaskList_eq_none_iff em.ppd lat lon em.dem).mp h
  have halls : ∀ d ∈ em.dem, d.contains site.lat site.lon = false :=
    (findMaskList_eq_none_iff em.ppd site.lat site.lon em.dem).mp hs
  refine ⟨?_, ?_, ?_, ?_⟩
  · show { em with dem := putMaskList em.ppd lat lon v em.dem } = em
    rw [putMaskList_noop em.ppd lat lon v em.dem hall]
  · show { em with dem := orMaskList em.ppd lat lon v em.dem } = em
    rw [orMaskList_noop em.ppd lat lon v em.dem hall]
  · show { em with dem := putSignalList em.ppd lat lon v em.dem } = em
    rw [putSignalList_noop em.ppd lat lon v em.dem hall]
  · show { em with dem := orMaskList em.ppd site.lat site.lon 2 em.dem } = em
    rw [orMaskList_noop em.ppd site.lat site.lon 2 em.dem halls]

/-- Witness for `mutating_ops_noop_outside_tiles`: an empty store and a
coordinate / site contained in no tile. -/
theorem mutating_ops_noop_outside_tiles_witness :
    (ElevationMap.mk 1200 []).putMask 10 20 3 = ElevationMap.mk 1200 [] ∧
    (ElevationMap.mk 1200 []).orMask 10 20 3 = ElevationMap.mk 1200 [] ∧
    (ElevationMap.mk 1200 []).putSignal 10 20 3 = ElevationMap.mk 1200 [] ∧
    (ElevationMap.mk 1200 []).placeMarker ⟨91, 361, 0, false, "", ""⟩ =
      ElevationMap.mk 1200 [] :=
  mutating_ops_noop_outside_tiles (ElevationMap.mk 1200 []) 10 20 3
    ⟨91, 361, 0, false, "", ""⟩ rfl rfl

/-! ## `Site::LoadQTH` (`src/site.cpp`, lines 102–181)

`LoadQTH` first stores the sentinel values `lat = 91.0`, `lon = 361.0`,
`alt = 0.0` (lines 116–118), then opens the file and returns early — with no
warning or error report (the source carries a `TODO: Shouldn't we WARN?`) —
when it cannot be opened (lines 122–124).  Otherwise it reads the name line,
parses the latitude and longitude lines with `Utilities::ReadBearing`,
normalizes the longitude by `if (lon < 0.0) lon += 360.0;` (lines 142–143),
parses the antenna height (converting a `M`/`m` suffix from meters to feet),
reads the optional AMSL marker, and records the file name.  The string
parsing itself (`Utilities::ReadBearing` lives in a `utilities.cpp` that is
not in the source tree) is abstracted: a `QTHFile` carries the values the
four parsed lines produce. -/

/-- A parsed QTH file: the values produced by the four (plus optional fifth)
lines of a `.qth` site file. -/
structure QTHFile where
  name : String
  /-- Result of `Utilities::ReadBearing` on the latitude line. -/
  latBearing : ℚ
  /-- Result of `Utilities::ReadBearing` on the longitude line. -/
  lonBearing : ℚ
  /-- Parsed antenna height, in feet. -/
  altFeet : ℚ
  /-- Whether the optional trailing line starts with `M`/`m` (AMSL). -/
  amsl : Bool
  deriving DecidableEq, Repr

/-- `Site::LoadQTH`: `none` models a file that cannot be opened. -/
def Site.loadQTH (s : Site) (qthfile : String) (file : Option QTHFile) : Site :=
  let s := { s with lat := 91, lon := 361, alt := 0 }
  match file with
  | none => s
  | some f =>
    let s := { s with name := f.name }
    let s := { s with lat := f.latBearing }
    let lon0 := f.lonBearing
    let s := { s with lon := if lon0 < 0 then lon0 + 360 else lon0 }
    let s := { s with alt := f.altFeet, amsl_flag := f.amsl }
    { s with filename := qthfile }

/-- **C8 (counterexample).** The claim says the loaded longitude lies in
`[0,360)` for *every* longitude value expressed in the file, but a parsed
longitude of exactly `360` is left untouched by the `if (lon < 0.0)
lon += 360.0;` normalization, and the loaded site has `lon = 360 ∉ [0,360)`. -/
theorem qth_lon_normalization_counterexample :
    ((Site.mk 0 0 0 false "" "").loadQTH "tx.qth"
        (some ⟨"TX", 45, 360, 50, false⟩)).lon = 360 ∧
    ¬(0 ≤ ((Site.mk 0 0 0 false "" "").loadQTH "tx.qth"
        (some ⟨"TX", 45, 360, 50, false⟩)).lon ∧
      ((Site.mk 0 0 0 false "" "").loadQTH "tx.qth"
        (some ⟨"TX", 45, 360, 50, false⟩)).lon < 360) := by
  constructor
  · rfl
  · rintro ⟨-, h⟩
    norm_num [Site.loadQTH] at h

/-- **C8 (amended).** After a `Site` is loaded from a QTH file that exists and
parses, its longitude is normalized to `[0,360)` (positive west) for every
parsed longitude value in `[-360, 360)` — in particular for every negative
east-positive value down to `-360`; the normalization adds 360 exactly when
the parsed value is negative.  (Parsed values of `360` or beyond, or below
`-360`, are not brought into range: see the counterexample.) -/
theorem qth_lon_normalized (s : Site) (qthfile : String) (f : QTHFile)
    (h1 : -360 ≤ f.lonBearing) (h2 : f.lonBearing < 360) :
    0 ≤ (s.loadQTH qthfile (some f)).lon ∧
    (s.loadQTH qthfile (some f)).lon < 360 ∧
    ((s.loadQTH qthfile (some f)).lon = f.lonBearing ∨
      (s.loadQTH qthfile (some f)).lon = f.lonBearing + 360) := by
  have hlon : (s.loadQTH qthfile (some f)).lon =
      if f.lonBearing < 0 then f.lonBearing + 360 else f.lonBearing := rfl
  rw [hlon]
  split_ifs with h
  · exact ⟨by linarith, by linarith, Or.inr rfl⟩
  · exact ⟨by linarith [not_lt.mp h], h2, Or.inl rfl⟩

/-- Witness for `qth_lon_normalized`: loading a site whose longitude line
parses to `-122.6765` (an east-positive value) lands in `[0,360)`. -/
theorem qth_lon_normalized_witness :
    0 ≤ ((Site.mk 0 0 0 false "" "").loadQTH "test_site.qth"
        (some ⟨"Test Site", 45.5231, -122.6765, 50, false⟩)).lon ∧
    ((Site.mk 0 0 0 false "" "").loadQTH "test_site.qth"
        (some ⟨"Test Site", 45.5231, -122.6765, 50, false⟩)).lon < 360 ∧
    (((Site.mk 0 0 0 false "" "").loadQTH "test_site.qth"
        (some ⟨"Test Site", 45.5231, -122.6765, 50, false⟩)).lon
        = -122.6765 ∨
      ((Site.mk 0 0 0 false "" "").loadQTH "test_site.qth"
        (some ⟨"Test Site", 45.5231, -122.6765, 50, false⟩)).lon
        = -122.6765 + 360) :=
  qth_lon_normalized (Site.mk 0 0 0 false "" "") "test_site.qth"
    ⟨"Test Site", 45.5231, -122.6765, 50, false⟩ (by norm_num) (by norm_num)

/-- **C10.** For every filename whose QTH file cannot be opened,
`Site::LoadQTH` returns silently — the function's only effect is the early
`return`, with no error reported (the model's return type has no error
channel, matching the `void` source whose only commentary is a
`TODO: Shouldn't we WARN?`) — leaving the site at the out-of-range sentinels
`lat = 91.0`, `lon = 361.0`, `alt = 0.0`; the resulting longitude violates
the `[0,360)` convention with no failure surfaced. -/
theorem qth_unopenable_silent_sentinels (s : Site) (qthfile : String) :
    s.loadQTH qthfile none = { s with lat := 91, lon := 361, alt := 0 } ∧
    (s.loadQTH qthfile none).lat = 91 ∧
    (s.loadQTH qthfile none).lon = 361 ∧
    (s.loadQTH qthfile none).alt = 0 ∧
    ¬((s.loadQTH qthfile none).lon < 360) := by
  refine ⟨rfl, rfl, rfl, rfl, ?_⟩
  show ¬((361 : ℚ) < 360)
  norm_num

/-! ## `Site::Distance` (`src/site.cpp`, lines 24–39) and `Path::ReadPath`

`Site::Distance` computes the great-circle distance in miles by the spherical
law of cosines, converting degrees to radians with the `DEG2RAD` constant of
`utilities.h` (`1.74532925199e-02`).  It is embedded over `ℝ` since it is
transcendental. -/

/-- The `DEG2RAD` macro of `utilities.h`. -/
noncomputable def degToRad (q : ℚ) : ℝ := (q : ℝ) * (1.74532925199e-2 : ℝ)

/-- `Site::Distance` (`site.cpp` lines 24–39): great-circle distance in miles
by the spherical law of cosines on Earth radius 3959 miles. -/
noncomputable def Site.Distance (s1 s2 : Site) : ℝ :=
  3959 * Real.arccos (Real.sin (degToRad s1.lat) * Real.sin (degToRad s2.lat) +
    Real.cos (degToRad s1.lat) * Real.cos (degToRad s2.lat) *
      Real.cos (degToRad s1.lon - degToRad s2.lon))

lemma site_distance_self (s : Site) : s.Distance s = 0 := by
  unfold Site.Distance
  rw [sub_self, Real.cos_zero, mul_one]
  have h2 : Real.sin (degToRad s.lat) * Real.sin (degToRad s.lat) +
      Real.cos (degToRad s.lat) * Real.cos (degToRad s.lat) = 1 := by
    have h := Real.sin_sq_add_cos_sq (degToRad s.lat)
    nlinarith [h]
  rw [h2, Real.arccos_one, mul_zero]

/-- The sample buffer of `path.h`: parallel latitude / longitude / elevation /
cumulative-distance lists and a `length` count of valid entries. -/
structure PathR where
  lat : List ℝ
  lon : List ℝ
  elevation : List ℝ
  distance : List ℝ
  length : ℕ

/-- Modelled from the spec: `Path::ReadPath` — the implementation file
`path.cpp` is not in the source tree; only the declaration in `path.h` is.
Per the spec, the sampler steps from the source toward the destination at a
fixed distance increment (the active resolution's degrees-per-pixel), placing
one sample at each cumulative distance `0, inc, 2·inc, …` not exceeding the
great-circle distance, within the buffer's fixed capacity; each sample
records the interpolated position and terrain elevation (delegated here to
`samplePos`, since the spec specifies only "spherical interpolation" plus a
tile-store lookup for them) together with its cumulative distance.  The
sampler is total: it neither fails nor loops. -/
noncomputable def readPath (arraysize : ℕ) (inc : ℝ)
    (samplePos : ℝ → ℝ × ℝ × ℝ) (source destination : Site) : PathR :=
  let total := source.Distance destination
  let n := min (⌊total / inc⌋₊ + 1) arraysize
  { lat := (List.range n).map fun k : ℕ => (samplePos ((k : ℝ) * inc)).1,
    lon := (List.range n).map fun k : ℕ => (samplePos ((k : ℝ) * inc)).2.1,
    elevation := (List.range n).map fun k : ℕ => (samplePos ((k : ℝ) * inc)).2.2,
    distance := (List.range n).map fun k : ℕ => (k : ℝ) * inc,
    length := n }

/-- **C9.** For every site `S`, sampling a path from `S` to `S` (coincident
endpoints) produces a path of length at most 1 whose recorded cumulative
distance is 0 — the buffer holds the single sample at distance 0 — and the
sampler terminates (it is a total function); the underlying great-circle
distance from `S` to itself is exactly 0. -/
theorem path_self_coincident (S : Site) (arraysize : ℕ) (inc : ℝ)
    (samplePos : ℝ → ℝ × ℝ × ℝ) (h2 : 1 ≤ arraysize) :
    (readPath arraysize inc samplePos S S).length ≤ 1 ∧
    (readPath arraysize inc samplePos S S).distance = [0] ∧
    S.Distance S = 0 := by
  have hd : S.Distance S = 0 := site_distance_self S
  have hn : min (⌊S.Distance S / inc⌋₊ + 1) arraysize = 1 := by
    rw [hd, zero_div, Nat.floor_zero]
    exact min_eq_left h2
  refine ⟨?_, ?_, hd⟩
  · show min (⌊S.Distance S / inc⌋₊ + 1) arraysize ≤ 1
    rw [hn]
  · show (List.range (min (⌊S.Distance S / inc⌋₊ + 1) arraysize)).map
        (fun k : ℕ => (k : ℝ) * inc) = [0]
    rw [hn]
    simp [List.range_succ]

/-- Witness for `path_self_coincident`: a concrete site, a unit increment and
a ten-entry buffer. -/
theorem path_self_coincident_witness :
    (readPath 10 1 (fun _ => (0, 0, 0)) (Site.mk 40 100 25 false "" "")
        (Site.mk 40 100 25 false "" "")).length ≤ 1 ∧
    (readPath 10 1 (fun _ => (0, 0, 0)) (Site.mk 40 100 25 false "" "")
        (Site.mk 40 100 25 false "" "")).distance = [0] ∧
    (Site.mk 40 100 25 false "" "").Distance (Site.mk 40 100 25 false "" "")
        = 0 :=
  path_self_coincident (Site.mk 40 100 25 false "" "") 10 1 (fun _ => (0, 0, 0))
    (by norm_num)

end Splat

